import Mathlib

/-!
# Verification of the tokentop streaming token-analysis engine

Shallow embedding of `src/tools/tokentop/src/main.rs`, the real-time
streaming token-analysis engine described by the specification.

Modelling conventions:
* Rust `f64` values are modelled as `ℚ`.  Every numeric literal involved
  (`5.0`, `2.0`, `1.5`, `0.5`, `0.8`, `0.6`, `0.4`, `0.1`, thresholds) and
  every quantity the claims depend on is an exact small decimal fraction,
  and the comparisons settled below are all far from equality boundaries,
  so exact rational arithmetic is a faithful model of the `f64` behaviour
  the claims are about.
* `std::time::Instant` is modelled as a `Nat` timestamp in milliseconds;
  `Duration::from_secs(1)` becomes the literal `1000`.
* `VecDeque<TokenStats>` with `with_capacity(buffer_size)` is modelled as a
  `List TokenStats` whose capacity check `len() >= capacity()` becomes
  `buffer_size ≤ length` (the allocator grants exactly the requested
  capacity for the sizes in play).
* `HashMap<String, usize>` is modelled as an association list
  `List (String × Nat)` with HashMap semantics: `insert` replaces an
  existing binding, `remove` deletes it, lookup returns the bound value.
* Rust `char::is_alphabetic` / `char::is_numeric` / `to_lowercase` are
  Unicode-aware; they are modelled by Lean's ASCII `Char.isAlpha` /
  `Char.isDigit` / `Char.toLower`.  No claim below depends on which
  characters fall in these classes.
* Fallible operations (Rust code that can panic, such as byte slicing of
  a `&str`) return `Option`, with `none` marking the panic.
-/

/-- Command line arguments (`Args`, main.rs lines 8–39).  The three
threshold fields are `f64`, modelled as `ℚ`. -/
structure Args where
  interval : Nat
  buffer_size : Nat
  patterns : Bool
  repetition_threshold : ℚ
  perplexity_threshold : ℚ
  confidence_threshold : ℚ
  raw : Bool

/-- The documented defaults: interval 100ms, buffer 1000, thresholds
0.4 / 20.0 / 0.5. -/
def defaultArgs : Args :=
  { interval := 100, buffer_size := 1000, patterns := false,
    repetition_threshold := 2/5, perplexity_threshold := 20,
    confidence_threshold := 1/2, raw := false }

/-- Token record (`TokenStats`, main.rs lines 41–48). -/
structure TokenStats where
  timestamp : Nat
  token : String
  perplexity : ℚ
  confidence : ℚ
  is_repetitive : Bool
deriving DecidableEq

/-- Mutable analysis state (`AnalysisState`, main.rs lines 50–60). -/
structure AnalysisState where
  tokens_per_second : ℚ
  avg_perplexity : ℚ
  repetition_score : ℚ
  confidence_score : ℚ
  detected_patterns : List String
  warning_flags : List String
  token_buffer : List TokenStats
  pattern_tracker : List (String × Nat)

/-- `AnalysisState::new` (main.rs lines 63–74): every metric starts at 0,
all containers empty.  The `buffer_size` argument only sizes the
`VecDeque` allocation, so it does not appear in the state model; the
capacity is passed to `push` instead. -/
def AnalysisState.new : AnalysisState :=
  { tokens_per_second := 0, avg_perplexity := 0, repetition_score := 0,
    confidence_score := 0, detected_patterns := [], warning_flags := [],
    token_buffer := [], pattern_tracker := [] }

/-- `HashMap::get` on the pattern tracker: first binding of the key. -/
def trackerGet : List (String × Nat) → String → Option Nat
  | [], _ => none
  | p :: rest, t => if p.1 = t then some p.2 else trackerGet rest t

/-- `self.pattern_tracker.get(&t).unwrap_or(&0)` (main.rs line 81). -/
def trackerVal (m : List (String × Nat)) (t : String) : Nat :=
  (trackerGet m t).getD 0

/-- `HashMap::insert`: replace the binding if the key is present,
otherwise add a new one. -/
def trackerInsert : List (String × Nat) → String → Nat → List (String × Nat)
  | [], t, v => [(t, v)]
  | p :: rest, t, v => if p.1 = t then (t, v) :: rest else p :: trackerInsert rest t v

/-- `HashMap::remove`: delete the binding of the key. -/
def trackerRemove : List (String × Nat) → String → List (String × Nat)
  | [], _ => []
  | p :: rest, t => if p.1 = t then rest else p :: trackerRemove rest t

/-- Eviction-side tracker maintenance (main.rs lines 80–86): read the old
token's count (defaulting to 0), remove the entry when it is ≤ 1,
otherwise decrement it. -/
def evictTracker (m : List (String × Nat)) (t : String) : List (String × Nat) :=
  let count := trackerVal m t
  if count ≤ 1 then trackerRemove m t else trackerInsert m t (count - 1)

/-- The buffer/tracker mutation part of `AnalysisState::update`
(main.rs lines 76–93): evict the front record when the buffer is at
capacity (decrementing its tracker count), then increment the new token's
count and append the record. -/
def AnalysisState.push (s : AnalysisState) (token_stats : TokenStats) (buffer_size : Nat) :
    AnalysisState :=
  let s1 :=
    if buffer_size ≤ s.token_buffer.length then
      match s.token_buffer with
      | [] => s
      | old :: rest =>
        { s with token_buffer := rest,
                 pattern_tracker := evictTracker s.pattern_tracker old.token }
    else s
  { s1 with
    pattern_tracker :=
      trackerInsert s1.pattern_tracker token_stats.token
        (trackerVal s1.pattern_tracker token_stats.token + 1),
    token_buffer := s1.token_buffer ++ [token_stats] }

/-- `pre` is a prefix of `s` (character-exact model of Rust byte-prefix
matching on valid UTF-8). -/
def beginsWith : List Char → List Char → Bool
  | [], _ => true
  | _ :: _, [] => false
  | a :: pre, b :: s => a = b && beginsWith pre s

/-- Rust `str::contains(pat)` for a literal pattern: some suffix of `s`
starts with `pat`. -/
def contains_str (s pat : String) : Bool :=
  (List.range (s.data.length + 1)).any (fun i => beginsWith pat.data (s.data.drop i))

/-- Rust `str::to_lowercase()` (modelled characterwise). -/
def lowerStr (s : String) : String := String.mk (s.data.map Char.toLower)

/-- `Vec::windows(3)` specialised to the token list, as used in
`detect_patterns` (main.rs line 147). -/
def windows3 : List String → List (List String)
  | a :: b :: c :: rest => [a, b, c] :: windows3 (b :: c :: rest)
  | _ => []

/-- The repeated-3-gram reports of `detect_patterns` (main.rs lines
146–154): for each 3-token window, join with spaces and look the joined
phrase up in the pattern tracker; report it when the stored count is ≥ 3. -/
def ngramReports (tokens : List String) (tracker : List (String × Nat)) : List String :=
  (windows3 tokens).filterMap (fun w =>
    let phrase := String.intercalate " " w
    match trackerGet tracker phrase with
    | some count =>
        if 3 ≤ count then
          some ("Repeated phrase: \"" ++ phrase ++ "\" (" ++ toString count ++ "x)")
        else none
    | none => none)

/-- Enumerator prefixes of the listing check (main.rs line 157). -/
def listing_indicators : List String := ["1.", "2.", "3.", "-", "*", "•"]

/-- The listing-pattern report of `detect_patterns` (main.rs lines
156–164). -/
def listingReport (tokens : List String) : List String :=
  if 3 ≤ (tokens.filter
      (fun t => listing_indicators.any (fun ind => beginsWith ind.data t.data))).length then
    ["Listing pattern detected"]
  else []

/-- Hedging lexicon of the uncertainty check (main.rs line 167). -/
def uncertainty_words : List String := ["maybe", "perhaps", "probably", "might", "could"]

/-- The uncertainty-language report of `detect_patterns` (main.rs lines
166–174).  The `f64` quotient `count / len` becomes the `ℚ` quotient; for
an empty token list Rust computes `0.0 / 0.0 = NaN` and `NaN > 0.1` is
false, and the model's `0 / 0 = 0 > 1/10` is false as well. -/
def uncertaintyReport (tokens : List String) : List String :=
  let uncertainty_count :=
    (tokens.filter (fun t => uncertainty_words.any (fun w => contains_str (lowerStr t) w))).length
  if ((uncertainty_count : ℚ) / (tokens.length : ℚ)) > 1/10 then
    ["High uncertainty language"]
  else []

/-- `AnalysisState::detect_patterns` (main.rs lines 138–175): clear the
report list and regenerate it in the fixed order n-grams, listing,
uncertainty. -/
def AnalysisState.detect_patterns (s : AnalysisState) : AnalysisState :=
  let tokens := s.token_buffer.map TokenStats.token
  { s with detected_patterns :=
      ngramReports tokens s.pattern_tracker ++ listingReport tokens ++ uncertaintyReport tokens }

/-- The capability-disclaimer marker set (main.rs line 199). -/
def hallucination_markers : List String := ["As an AI", "I cannot", "I don\x27t have access"]

/-- Threshold comparisons of `check_warnings` (main.rs lines 180–190). -/
def thresholdWarnings (args : Args) (rep avg conf : ℚ) : List String :=
  (if rep > args.repetition_threshold then ["High repetition detected"] else []) ++
  (if avg > args.perplexity_threshold then ["Perplexity rising"] else []) ++
  (if conf < args.confidence_threshold then ["Low confidence"] else [])

/-- Marker scan of `check_warnings` (main.rs lines 192–204): one warning
per marker that some token of the trailing 20-token slice contains. -/
def hallucinationWarnings (recent : List String) : List String :=
  hallucination_markers.filterMap (fun marker =>
    if recent.any (fun t => contains_str t marker) then
      some ("Hallucination marker: " ++ marker)
    else none)

/-- `AnalysisState::check_warnings` (main.rs lines 177–205): clear the
warning list and regenerate it from the current scores and the most
recent 20 tokens. -/
def AnalysisState.check_warnings (s : AnalysisState) (args : Args) : AnalysisState :=
  { s with warning_flags :=
      thresholdWarnings args s.repetition_score s.avg_perplexity s.confidence_score ++
      hallucinationWarnings ((s.token_buffer.reverse.take 20).map TokenStats.token) }

/-- `AnalysisState::calculate_metrics` (main.rs lines 99–136).  `now` is
the `Instant::now()` taken at line 104.  On an empty buffer the method
returns immediately, leaving every field unchanged. -/
def AnalysisState.calculate_metrics (s : AnalysisState) (args : Args) (now : Nat) :
    AnalysisState :=
  if s.token_buffer.isEmpty then s
  else
    let s1 :=
      { s with
        tokens_per_second :=
          (((s.token_buffer.filter (fun t : TokenStats => now - t.timestamp < 1000)).length : ℕ) : ℚ),
        avg_perplexity :=
          (s.token_buffer.map TokenStats.perplexity).sum / (s.token_buffer.length : ℚ),
        confidence_score :=
          (s.token_buffer.map TokenStats.confidence).sum / (s.token_buffer.length : ℚ),
        repetition_score :=
          if 0 < s.token_buffer.length then
            1 - ((s.pattern_tracker.length : ℚ) / (s.token_buffer.length : ℚ))
          else 0 }
    (s1.detect_patterns).check_warnings args

/-- `AnalysisState::update` (main.rs lines 76–97): mutate buffer and
tracker, then recompute all statistics. -/
def AnalysisState.update (s : AnalysisState) (token_stats : TokenStats) (args : Args)
    (now : Nat) : AnalysisState :=
  (s.push token_stats args.buffer_size).calculate_metrics args now

/-- `tokenize_line` (main.rs lines 272–277): Rust
`split_whitespace`, i.e. the maximal non-whitespace runs of the line. -/
def splitWsAux : List Char → List Char → List String
  | [], acc => if acc.isEmpty then [] else [String.mk acc.reverse]
  | c :: rest, acc =>
    if c.isWhitespace then
      (if acc.isEmpty then [] else [String.mk acc.reverse]) ++ splitWsAux rest []
    else splitWsAux rest (c :: acc)

def tokenize_line (line : String) : List String := splitWsAux line.data []

/-- `calculate_perplexity` (main.rs lines 294–301): three bands over the
byte length of the token.  `token.len()` is the UTF-8 byte length, and a
length of 0 falls into the catch-all `_` arm. -/
def calculate_perplexity (token : String) : ℚ :=
  if 1 ≤ token.utf8ByteSize ∧ token.utf8ByteSize ≤ 3 then
    5 + (token.utf8ByteSize : ℚ) * 2
  else if 4 ≤ token.utf8ByteSize ∧ token.utf8ByteSize ≤ 8 then
    10 + (token.utf8ByteSize : ℚ) * (3/2)
  else
    15 + (token.utf8ByteSize : ℚ) * (1/2)

/-- `calculate_confidence` (main.rs lines 303–312). -/
def calculate_confidence (token : String) : ℚ :=
  if token.data.all Char.isAlpha then 4/5
  else if token.data.any Char.isDigit then 3/5
  else 2/5

/-- The adjacent-equal-characters scan of `is_repetitive_token`
(main.rs lines 320–327): `chars.windows(2)` with an equality test. -/
def hasAdjacentDup : List Char → Bool
  | a :: b :: rest => a = b || hasAdjacentDup (b :: rest)
  | _ => false

/-- `is_repetitive_token` (main.rs lines 314–328): tokens shorter than 3
bytes are declared non-repetitive before the adjacent-pair scan runs. -/
def is_repetitive_token (token : String) : Bool :=
  if token.utf8ByteSize < 3 then false
  else hasAdjacentDup token.data

/-- `analyze_token` (main.rs lines 279–292); `now` is the arrival
`Instant::now()`. -/
def analyze_token (token : String) (now : Nat) : TokenStats :=
  { timestamp := now, token := token,
    perplexity := calculate_perplexity token,
    confidence := calculate_confidence token,
    is_repetitive := is_repetitive_token token }

/-- The sequence of `state.update(...)` calls main performs for a given
arrival sequence of already-evaluated records (each paired with the
`Instant::now()` of its update). -/
def runStats (args : Args) (l : List (TokenStats × Nat)) : AnalysisState :=
  l.foldl (fun s p => s.update p.1 args p.2) AnalysisState.new

/-- The full ingestion pipeline for a sequence of raw tokens with arrival
times: evaluate each token (`analyze_token`) and feed it to
`state.update`. -/
def runTokens (args : Args) (l : List (String × Nat)) : AnalysisState :=
  runStats args (l.map (fun p => (analyze_token p.1 p.2, p.2)))

/-- The byte-slicing operation `&s[..k]` (used by `truncate_string`,
main.rs line 410): take the first `k` bytes of `s`.  Returns `none` —
the Rust panic — when `k` does not land on a character boundary (or lies
past the end of the string). -/
def takeBytes : List Char → Nat → Option (List Char)
  | _, 0 => some []
  | [], _ + 1 => none
  | c :: rest, k + 1 =>
    if c.utf8Size ≤ k + 1 then (takeBytes rest (k + 1 - c.utf8Size)).map (fun l => c :: l)
    else none

/-- `truncate_string` (main.rs lines 406–411): return the string if its
byte length fits, otherwise slice `max_len.saturating_sub(3)` bytes and
append `"..."`.  The slice panics (`none`) when the cut index falls
inside a multi-byte character. -/
def truncate_string (s : String) (max_len : Nat) : Option String :=
  if s.utf8ByteSize ≤ max_len then some s
  else (takeBytes s.data (max_len - 3)).map (fun l => String.mk l ++ "...")

/-- Configuration of the analysis/render loop of `main` (main.rs lines
242–255): the analysis state, the tokens currently queued in the mpsc
channel (each with the `Instant::now()` of its update), the milliseconds
since the last render, and the number of snapshots rendered. -/
structure ConsumerConfig where
  state : AnalysisState
  pending : List (TokenStats × Nat)
  since_render : Nat
  renders : Nat

/-- The drain phase of the loop body (`while let Ok(token_stats) =
rx.try_recv()`, main.rs lines 244–246): update the state with every
queued token. -/
def drainAll (args : Args) (st : AnalysisState) (pending : List (TokenStats × Nat)) :
    AnalysisState :=
  pending.foldl (fun s p => s.update p.1 args p.2) st

/-- One iteration of the `loop` in `main` (main.rs lines 242–255): drain
the queue, render if the interval has elapsed (resetting `last_update`),
then sleep 10ms.  The loop body contains no `break` and no `return`, so
the iteration never produces the loop-exit outcome `none`. -/
def consumerStep (args : Args) (cfg : ConsumerConfig) : Option ConsumerConfig :=
  let st := drainAll args cfg.state cfg.pending
  let rendered := args.interval ≤ cfg.since_render
  some { state := st, pending := [],
         since_render := (if rendered then 0 else cfg.since_render) + 10,
         renders := cfg.renders + (if rendered then 1 else 0) }

/-- Iterate the loop body; `none` records that the loop exited within the
given number of iterations. -/
def consumerIter (args : Args) : Nat → ConsumerConfig → Option ConsumerConfig
  | 0, cfg => some cfg
  | n + 1, cfg =>
    match consumerStep args cfg with
    | some cfg2 => consumerIter args n cfg2
    | none => none

/-- The loop configuration after the input stream has been exhausted and
every queued token drained: empty queue, fresh analysis state. -/
def exhaustedConfig : ConsumerConfig :=
  { state := AnalysisState.new, pending := [], since_render := 0, renders := 0 }

/-- Follows the spec's words for claim C7 (spec §4.3): the count of ALL
arrived records whose arrival time falls within the trailing 1-second
interval, "independent of the Window's element-count capacity".  This is
the comparison point for the refinement claim; the code's definition is
`AnalysisState.calculate_metrics`. -/
def specArrivalsInLastSecond (arrivals : List (String × Nat)) (now : Nat) : Nat :=
  (arrivals.filter (fun p => now - p.2 < 1000)).length

/-! ## Concrete fixtures used by the verification -/

/-- Arguments with the given window capacity, defaults otherwise. -/
def argsCap (c : Nat) : Args := { defaultArgs with buffer_size := c }

/-- The spec's nine-token example sequence, all arriving at time 0. -/
def nineTokens : List (String × Nat) :=
  [("the", 0), ("cat", 0), ("sat", 0), ("the", 0), ("cat", 0), ("sat", 0),
   ("the", 0), ("cat", 0), ("sat", 0)]

/-- The first eight of the nine example tokens. -/
def ninePrefix : List (String × Nat) :=
  [("the", 0), ("cat", 0), ("sat", 0), ("the", 0), ("cat", 0), ("sat", 0),
   ("the", 0), ("cat", 0)]

/-- The first four tokens of the spec's disclaimer-line example. -/
def disclaimPrefix : List (String × Nat) :=
  [("I", 0), ("cannot", 0), ("browse", 0), ("real-time", 0)]

/-- A plain token record used in window-length scenarios. -/
def plainTS (t : String) : TokenStats :=
  { timestamp := 0, token := t, perplexity := 0, confidence := 0, is_repetitive := false }

/-! ## Basic state-preservation lemmas -/

theorem detect_patterns_token_buffer (s : AnalysisState) :
    (s.detect_patterns).token_buffer = s.token_buffer := rfl

theorem detect_patterns_pattern_tracker (s : AnalysisState) :
    (s.detect_patterns).pattern_tracker = s.pattern_tracker := rfl

theorem check_warnings_token_buffer (s : AnalysisState) (args : Args) :
    (s.check_warnings args).token_buffer = s.token_buffer := rfl

theorem check_warnings_pattern_tracker (s : AnalysisState) (args : Args) :
    (s.check_warnings args).pattern_tracker = s.pattern_tracker := rfl

theorem calculate_metrics_token_buffer (s : AnalysisState) (args : Args) (now : Nat) :
    (s.calculate_metrics args now).token_buffer = s.token_buffer := by
  unfold AnalysisState.calculate_metrics
  split <;> rfl

theorem calculate_metrics_pattern_tracker (s : AnalysisState) (args : Args) (now : Nat) :
    (s.calculate_metrics args now).pattern_tracker = s.pattern_tracker := by
  unfold AnalysisState.calculate_metrics
  split <;> rfl

theorem push_token_buffer (s : AnalysisState) (ts : TokenStats) (C : Nat) :
    (s.push ts C).token_buffer =
      (if C ≤ s.token_buffer.length then s.token_buffer.tail else s.token_buffer) ++ [ts] := by
  unfold AnalysisState.push
  by_cases hC : C ≤ s.token_buffer.length
  · cases hb : s.token_buffer with
    | nil => simp [hC, hb]
    | cons old rest =>
      rw [hb] at hC
      simp only [List.length_cons] at hC
      simp [hC, hb]
  · simp [hC]

theorem update_token_buffer (s : AnalysisState) (ts : TokenStats) (args : Args) (now : Nat) :
    (s.update ts args now).token_buffer =
      (if args.buffer_size ≤ s.token_buffer.length then s.token_buffer.tail
       else s.token_buffer) ++ [ts] := by
  unfold AnalysisState.update
  rw [calculate_metrics_token_buffer, push_token_buffer]

/-! ## Association-list (HashMap model) lemmas -/

theorem trackerGet_eq_none_iff (m : List (String × Nat)) (t : String) :
    trackerGet m t = none ↔ t ∉ m.map Prod.fst := by
  induction m with
  | nil => simp [trackerGet]
  | cons p rest ih =>
    by_cases h : p.1 = t
    · simp [trackerGet, h]
    · simp only [trackerGet, if_neg h, List.map_cons, List.mem_cons, ih]
      constructor
      · intro hn hc
        rcases hc with he | hm
        · exact h he.symm
        · exact hn hm
      · intro hn hm
        exact hn (Or.inr hm)

theorem trackerVal_insert_self (m : List (String × Nat)) (t : String) (v : Nat) :
    trackerVal (trackerInsert m t v) t = v := by
  induction m with
  | nil => simp [trackerInsert, trackerVal, trackerGet]
  | cons p rest ih =>
    by_cases h : p.1 = t
    · simp [trackerInsert, trackerVal, trackerGet, h]
    · simpa [trackerInsert, trackerVal, trackerGet, h] using ih

theorem trackerVal_insert_ne (m : List (String × Nat)) (t t' : String) (v : Nat)
    (h : t' ≠ t) : trackerVal (trackerInsert m t v) t' = trackerVal m t' := by
  have h2 : t ≠ t' := Ne.symm h
  induction m with
  | nil => simp [trackerInsert, trackerVal, trackerGet, h2]
  | cons p rest ih =>
    by_cases hp : p.1 = t
    · have hpt : p.1 ≠ t' := by rw [hp]; exact h2
      simp [trackerInsert, trackerVal, trackerGet, hp, hpt, h2]
    · by_cases hpt : p.1 = t'
      · simp [trackerInsert, trackerVal, trackerGet, hp, hpt, h2, h]
      · simpa [trackerInsert, trackerVal, trackerGet, hp, hpt] using ih

theorem trackerRemove_sublist (m : List (String × Nat)) (t : String) :
    (trackerRemove m t).Sublist m := by
  induction m with
  | nil => simp [trackerRemove]
  | cons p rest ih =>
    by_cases h : p.1 = t
    · rw [trackerRemove, if_pos h]
      exact List.sublist_cons_self p rest
    · rw [trackerRemove, if_neg h]
      exact ih.cons₂ p

theorem trackerVal_remove_ne (m : List (String × Nat)) (t t' : String)
    (h : t' ≠ t) : trackerVal (trackerRemove m t) t' = trackerVal m t' := by
  have h2 : t ≠ t' := Ne.symm h
  induction m with
  | nil => simp [trackerRemove]
  | cons p rest ih =>
    by_cases hp : p.1 = t
    · have hpt : p.1 ≠ t' := by rw [hp]; exact h2
      simp [trackerRemove, trackerVal, trackerGet, hp, hpt, h2]
    · by_cases hpt : p.1 = t'
      · simp [trackerRemove, trackerVal, trackerGet, hp, hpt, h2, h]
      · simpa [trackerRemove, trackerVal, trackerGet, hp, hpt] using ih

theorem trackerGet_remove_self (m : List (String × Nat)) (t : String)
    (hnd : (m.map Prod.fst).Nodup) : trackerGet (trackerRemove m t) t = none := by
  induction m with
  | nil => simp [trackerRemove, trackerGet]
  | cons p rest ih =>
    rw [List.map_cons, List.nodup_cons] at hnd
    by_cases h : p.1 = t
    · rw [trackerRemove, if_pos h]
      exact (trackerGet_eq_none_iff rest t).mpr (h ▸ hnd.1)
    · rw [trackerRemove, if_neg h, trackerGet, if_neg h]
      exact ih hnd.2

theorem trackerInsert_keys (m : List (String × Nat)) (t : String) (v : Nat) :
    (trackerInsert m t v).map Prod.fst =
      if t ∈ m.map Prod.fst then m.map Prod.fst else m.map Prod.fst ++ [t] := by
  induction m with
  | nil => simp [trackerInsert]
  | cons p rest ih =>
    by_cases h : p.1 = t
    · simp [trackerInsert, h]
    · have hne : ¬ t = p.1 := fun he => h he.symm
      by_cases hm : t ∈ rest.map Prod.fst
      · simp [trackerInsert, h, ih, hm, hne]
      · simp [trackerInsert, h, ih, hm, hne]

theorem trackerInsert_keys_nodup (m : List (String × Nat)) (t : String) (v : Nat)
    (h : (m.map Prod.fst).Nodup) : ((trackerInsert m t v).map Prod.fst).Nodup := by
  rw [trackerInsert_keys]
  by_cases hm : t ∈ m.map Prod.fst
  · simpa [hm] using h
  · rw [if_neg hm]
    refine List.Nodup.append h (List.nodup_singleton t) ?_
    intro x hx hxt
    rw [List.mem_singleton] at hxt
    exact hm (hxt ▸ hx)

theorem mem_trackerInsert (m : List (String × Nat)) (t : String) (v : Nat)
    (p : String × Nat) (hp : p ∈ trackerInsert m t v) : p = (t, v) ∨ p ∈ m := by
  induction m with
  | nil => simpa [trackerInsert] using hp
  | cons q rest ih =>
    by_cases h : q.1 = t
    · rw [trackerInsert, if_pos h] at hp
      rcases List.mem_cons.mp hp with h1 | h2
      · exact Or.inl h1
      · exact Or.inr (List.mem_cons.mpr (Or.inr h2))
    · rw [trackerInsert, if_neg h] at hp
      rcases List.mem_cons.mp hp with h1 | h2
      · exact Or.inr (List.mem_cons.mpr (Or.inl h1))
      · rcases ih h2 with h3 | h4
        · exact Or.inl h3
        · exact Or.inr (List.mem_cons.mpr (Or.inr h4))

theorem sum_trackerInsert (m : List (String × Nat)) (t : String) (v : Nat) :
    ((trackerInsert m t v).map Prod.snd).sum + trackerVal m t = (m.map Prod.snd).sum + v := by
  induction m with
  | nil => simp [trackerInsert, trackerVal, trackerGet]
  | cons p rest ih =>
    by_cases h : p.1 = t
    · simp only [trackerInsert, if_pos h, trackerVal, trackerGet, List.map_cons, List.sum_cons,
        Option.getD_some]
      omega
    · simp only [trackerInsert, if_neg h, trackerVal, trackerGet, List.map_cons, List.sum_cons]
      simp only [trackerVal] at ih
      omega

theorem sum_trackerRemove (m : List (String × Nat)) (t : String) :
    ((trackerRemove m t).map Prod.snd).sum + trackerVal m t = (m.map Prod.snd).sum := by
  induction m with
  | nil => simp [trackerRemove, trackerVal, trackerGet]
  | cons p rest ih =>
    by_cases h : p.1 = t
    · simp only [trackerRemove, if_pos h, trackerVal, trackerGet, List.map_cons, List.sum_cons,
        Option.getD_some]
      omega
    · simp only [trackerRemove, if_neg h, trackerVal, trackerGet, List.map_cons, List.sum_cons]
      simp only [trackerVal] at ih
      omega

/-! ## The frequency-table consistency invariant -/

/-- Consistency of a pattern tracker with a token buffer: distinct keys,
each key's count is exactly the number of matching records, no zero
counts, and the counts sum to the buffer length. -/
structure TrackerInvRaw (m : List (String × Nat)) (b : List TokenStats) : Prop where
  nodup : (m.map Prod.fst).Nodup
  counts : ∀ t, trackerVal m t = (b.map TokenStats.token).count t
  nozero : ∀ p, p ∈ m → p.2 ≠ 0
  sums : (m.map Prod.snd).sum = b.length

theorem trackerInvRaw_nil : TrackerInvRaw [] [] := by
  refine ⟨List.nodup_nil, ?_, ?_, rfl⟩
  · intro t; simp [trackerVal, trackerGet]
  · intro p hp; simp at hp

theorem trackerInvRaw_insert (m : List (String × Nat)) (b : List TokenStats)
    (ts : TokenStats) (h : TrackerInvRaw m b) :
    TrackerInvRaw (trackerInsert m ts.token (trackerVal m ts.token + 1)) (b ++ [ts]) := by
  refine ⟨trackerInsert_keys_nodup _ _ _ h.nodup, ?_, ?_, ?_⟩
  · intro t
    by_cases ht : t = ts.token
    · subst ht
      rw [trackerVal_insert_self, h.counts ts.token]
      simp
    · rw [trackerVal_insert_ne m _ _ _ ht, h.counts t]
      simp [List.count_singleton', Ne.symm ht]
  · intro p hp
    rcases mem_trackerInsert _ _ _ p hp with h1 | h2
    · rw [h1]; simp
    · exact h.nozero p h2
  · have hsum := sum_trackerInsert m ts.token (trackerVal m ts.token + 1)
    have hs := h.sums
    simp only [List.length_append, List.length_singleton]
    omega

theorem trackerInvRaw_evict (m : List (String × Nat)) (old : TokenStats)
    (rest : List TokenStats) (h : TrackerInvRaw m (old :: rest)) :
    TrackerInvRaw (evictTracker m old.token) rest := by
  have hc : trackerVal m old.token = (rest.map TokenStats.token).count old.token + 1 := by
    have hco := h.counts old.token
    simpa using hco
  simp only [evictTracker]
  by_cases h1 : trackerVal m old.token ≤ 1
  · rw [if_pos h1]
    have hc0 : (rest.map TokenStats.token).count old.token = 0 := by omega
    refine ⟨List.Nodup.sublist ((trackerRemove_sublist m old.token).map Prod.fst) h.nodup,
      ?_, ?_, ?_⟩
    · intro t
      by_cases ht : t = old.token
      · subst ht
        rw [trackerVal, trackerGet_remove_self m _ h.nodup]
        simp [hc0]
      · rw [trackerVal_remove_ne m _ _ ht, h.counts t]
        simp [List.count_cons_of_ne ht]
    · intro p hp
      exact h.nozero p ((trackerRemove_sublist m old.token).subset hp)
    · have hsum := sum_trackerRemove m old.token
      have hs := h.sums
      simp only [List.length_cons] at hs
      omega
  · rw [if_neg h1]
    refine ⟨trackerInsert_keys_nodup _ _ _ h.nodup, ?_, ?_, ?_⟩
    · intro t
      by_cases ht : t = old.token
      · subst ht
        rw [trackerVal_insert_self]
        omega
      · rw [trackerVal_insert_ne m _ _ _ ht, h.counts t]
        simp [List.count_cons_of_ne ht]
    · intro p hp
      rcases mem_trackerInsert _ _ _ p hp with h2 | h3
      · rw [h2]
        simp only [ne_eq]
        omega
      · exact h.nozero p h3
    · have hsum := sum_trackerInsert m old.token (trackerVal m old.token - 1)
      have hs := h.sums
      simp only [List.length_cons] at hs
      omega

/-- The invariant at the state level. -/
def TrackerInv (s : AnalysisState) : Prop :=
  TrackerInvRaw s.pattern_tracker s.token_buffer

theorem trackerInv_push (s : AnalysisState) (ts : TokenStats) (C : Nat)
    (h : TrackerInv s) : TrackerInv (s.push ts C) := by
  unfold TrackerInv at h ⊢
  by_cases hC : C ≤ s.token_buffer.length
  · cases hb : s.token_buffer with
    | nil =>
      have h0 : TrackerInvRaw s.pattern_tracker [] := hb ▸ h
      have h2 := trackerInvRaw_insert _ _ ts h0
      simp only [AnalysisState.push, hb, hC, List.length_nil, if_true]
      simpa [hb] using h2
    | cons old rest =>
      have h0 : TrackerInvRaw s.pattern_tracker (old :: rest) := hb ▸ h
      have h1 := trackerInvRaw_evict _ _ _ h0
      have h2 := trackerInvRaw_insert _ _ ts h1
      have hC2 : C ≤ rest.length + 1 := by
        rw [hb] at hC
        simpa using hC
      simp only [AnalysisState.push, hb, List.length_cons, hC2, if_true]
      simpa using h2
  · have h2 := trackerInvRaw_insert _ _ ts h
    simp only [AnalysisState.push, hC, if_false]
    simpa using h2

theorem trackerInv_calculate_metrics (s : AnalysisState) (args : Args) (now : Nat)
    (h : TrackerInv s) : TrackerInv (s.calculate_metrics args now) := by
  unfold TrackerInv
  rw [calculate_metrics_token_buffer, calculate_metrics_pattern_tracker]
  exact h

theorem trackerInv_update (s : AnalysisState) (ts : TokenStats) (args : Args) (now : Nat)
    (h : TrackerInv s) : TrackerInv (s.update ts args now) :=
  trackerInv_calculate_metrics _ _ _ (trackerInv_push s ts args.buffer_size h)

theorem trackerInv_runStats (args : Args) (l : List (TokenStats × Nat)) :
    TrackerInv (runStats args l) := by
  have hgen : ∀ (l2 : List (TokenStats × Nat)) (s : AnalysisState), TrackerInv s →
      TrackerInv (l2.foldl (fun s p => s.update p.1 args p.2) s) := by
    intro l2
    induction l2 with
    | nil => intro s hs; exact hs
    | cons p rest ih =>
      intro s hs
      exact ih _ (trackerInv_update s p.1 args p.2 hs)
  exact hgen l AnalysisState.new trackerInvRaw_nil

/-! ## Field equations of `calculate_metrics` on a non-empty buffer -/

theorem calculate_metrics_tokens_per_second (s : AnalysisState) (args : Args) (now : Nat)
    (hne : s.token_buffer.isEmpty = false) :
    (s.calculate_metrics args now).tokens_per_second =
      (((s.token_buffer.filter (fun t : TokenStats => now - t.timestamp < 1000)).length : ℕ) : ℚ) := by
  unfold AnalysisState.calculate_metrics
  rw [if_neg (by simp [hne])]
  rfl

theorem calculate_metrics_confidence_score (s : AnalysisState) (args : Args) (now : Nat)
    (hne : s.token_buffer.isEmpty = false) :
    (s.calculate_metrics args now).confidence_score =
      (s.token_buffer.map TokenStats.confidence).sum / (s.token_buffer.length : ℚ) := by
  unfold AnalysisState.calculate_metrics
  rw [if_neg (by simp [hne])]
  rfl

theorem calculate_metrics_detected_patterns (s : AnalysisState) (args : Args) (now : Nat)
    (hne : s.token_buffer.isEmpty = false) :
    (s.calculate_metrics args now).detected_patterns =
      ngramReports (s.token_buffer.map TokenStats.token) s.pattern_tracker ++
      listingReport (s.token_buffer.map TokenStats.token) ++
      uncertaintyReport (s.token_buffer.map TokenStats.token) := by
  unfold AnalysisState.calculate_metrics
  rw [if_neg (by simp [hne])]
  rfl

theorem calculate_metrics_warning_flags (s : AnalysisState) (args : Args) (now : Nat)
    (hne : s.token_buffer.isEmpty = false) :
    (s.calculate_metrics args now).warning_flags =
      thresholdWarnings args
        (if 0 < s.token_buffer.length then
          1 - ((s.pattern_tracker.length : ℚ) / (s.token_buffer.length : ℚ))
         else 0)
        ((s.token_buffer.map TokenStats.perplexity).sum / (s.token_buffer.length : ℚ))
        ((s.token_buffer.map TokenStats.confidence).sum / (s.token_buffer.length : ℚ)) ++
      hallucinationWarnings ((s.token_buffer.reverse.take 20).map TokenStats.token) := by
  unfold AnalysisState.calculate_metrics
  rw [if_neg (by simp [hne])]
  rfl

theorem push_token_buffer_ne (s : AnalysisState) (ts : TokenStats) (C : Nat) :
    (s.push ts C).token_buffer.isEmpty = false := by
  rw [push_token_buffer]
  simp

/-! ## Window length -/

theorem update_token_buffer_length (s : AnalysisState) (ts : TokenStats) (args : Args)
    (now : Nat) (hC : 1 ≤ args.buffer_size) :
    (s.update ts args now).token_buffer.length =
      if args.buffer_size ≤ s.token_buffer.length then s.token_buffer.length
      else s.token_buffer.length + 1 := by
  rw [update_token_buffer]
  by_cases hc : args.buffer_size ≤ s.token_buffer.length
  · rw [if_pos hc, if_pos hc]
    have h1 : 1 ≤ s.token_buffer.length := le_trans hC hc
    simp only [List.length_append, List.length_tail, List.length_singleton]
    omega
  · rw [if_neg hc, if_neg hc]
    simp

theorem runStats_token_buffer_length (args : Args) (hC : 1 ≤ args.buffer_size)
    (l : List (TokenStats × Nat)) :
    (runStats args l).token_buffer.length = min l.length args.buffer_size := by
  have hgen : ∀ (l2 : List (TokenStats × Nat)) (s : AnalysisState),
      s.token_buffer.length ≤ args.buffer_size →
      (l2.foldl (fun s p => s.update p.1 args p.2) s).token_buffer.length
        = min (s.token_buffer.length + l2.length) args.buffer_size := by
    intro l2
    induction l2 with
    | nil =>
      intro s hs
      simp only [List.foldl_nil, List.length_nil]
      omega
    | cons p rest ih =>
      intro s hs
      rw [List.foldl_cons]
      have hlen := update_token_buffer_length s p.1 args p.2 hC
      have hle : (s.update p.1 args p.2).token_buffer.length ≤ args.buffer_size := by
        rw [hlen]
        by_cases hc : args.buffer_size ≤ s.token_buffer.length
        · rw [if_pos hc]; exact hs
        · rw [if_neg hc]; omega
      rw [ih _ hle, hlen]
      by_cases hc : args.buffer_size ≤ s.token_buffer.length
      · rw [if_pos hc]
        simp only [List.length_cons]
        omega
      · rw [if_neg hc]
        simp only [List.length_cons]
        omega
  have h0 := hgen l AnalysisState.new (by simp [AnalysisState.new])
  simpa [runStats, AnalysisState.new] using h0

/-! ## Confidence bounds -/

theorem calculate_confidence_cases (t : String) :
    calculate_confidence t = 2/5 ∨ calculate_confidence t = 3/5 ∨
      calculate_confidence t = 4/5 := by
  unfold calculate_confidence
  by_cases h1 : t.data.all Char.isAlpha
  · right; right; rw [if_pos h1]
  · by_cases h2 : t.data.any Char.isDigit
    · right; left; rw [if_neg h1, if_pos h2]
    · left; rw [if_neg h1, if_neg h2]

theorem calculate_confidence_le (t : String) : calculate_confidence t ≤ 4/5 := by
  rcases calculate_confidence_cases t with h | h | h <;> rw [h] <;> norm_num

theorem mean_le_of_forall_le (l : List ℚ) (c : ℚ) (hc : 0 ≤ c) (h : ∀ x ∈ l, x ≤ c) :
    l.sum / (l.length : ℚ) ≤ c := by
  rcases eq_or_ne l [] with rfl | hne
  · simpa using hc
  · have hlen : 0 < (l.length : ℚ) := by
      have h1 : 0 < l.length := List.length_pos.mpr hne
      exact_mod_cast h1
    rw [div_le_iff₀ hlen]
    calc l.sum ≤ l.length • c := List.sum_le_card_nsmul l c h
    _ = (l.length : ℚ) * c := by rw [nsmul_eq_mul]
    _ = c * (l.length : ℚ) := by ring

/-- Every record of the buffer has confidence at most 0.8, and so does the
current confidence score. -/
def ConfInv (s : AnalysisState) : Prop :=
  (∀ r, r ∈ s.token_buffer → r.confidence ≤ 4/5) ∧ s.confidence_score ≤ 4/5

theorem confInv_update (s : AnalysisState) (ts : TokenStats) (args : Args) (now : Nat)
    (hts : ts.confidence ≤ 4/5) (h : ConfInv s) : ConfInv (s.update ts args now) := by
  have hbuf : ∀ r, r ∈ (s.update ts args now).token_buffer → r.confidence ≤ 4/5 := by
    intro r hr
    rw [update_token_buffer] at hr
    rcases List.mem_append.mp hr with h1 | h2
    · have hmem : r ∈ s.token_buffer := by
        by_cases hc : args.buffer_size ≤ s.token_buffer.length
        · rw [if_pos hc] at h1
          exact List.mem_of_mem_tail h1
        · rw [if_neg hc] at h1
          exact h1
      exact h.1 r hmem
    · rw [List.mem_singleton] at h2
      rw [h2]
      exact hts
  refine ⟨hbuf, ?_⟩
  have hne := push_token_buffer_ne s ts args.buffer_size
  have hsc := calculate_metrics_confidence_score (s.push ts args.buffer_size) args now hne
  have hb : (s.update ts args now).token_buffer = (s.push ts args.buffer_size).token_buffer :=
    calculate_metrics_token_buffer _ _ _
  show (s.update ts args now).confidence_score ≤ 4/5
  have hupd : (s.update ts args now).confidence_score =
      ((s.push ts args.buffer_size).calculate_metrics args now).confidence_score := rfl
  rw [hupd, hsc]
  have hml : ((s.push ts args.buffer_size).token_buffer.length : ℚ) =
      ((List.map TokenStats.confidence (s.push ts args.buffer_size).token_buffer).length : ℚ) := by
    rw [List.length_map]
  rw [hml]
  apply mean_le_of_forall_le _ _ (by norm_num)
  intro x hx
  rcases List.mem_map.mp hx with ⟨r, hr, hrx⟩
  rw [← hrx]
  exact hbuf r (by rw [hb]; exact hr)

theorem confInv_runTokens (args : Args) (l : List (String × Nat)) :
    ConfInv (runTokens args l) := by
  have hgen : ∀ (l2 : List (String × Nat)) (s : AnalysisState), ConfInv s →
      ConfInv (l2.foldl (fun s p => s.update (analyze_token p.1 p.2) args p.2) s) := by
    intro l2
    induction l2 with
    | nil => intro s hs; exact hs
    | cons p rest ih =>
      intro s hs
      refine ih _ (confInv_update s _ args p.2 ?_ hs)
      exact calculate_confidence_le p.1
  have hnew : ConfInv AnalysisState.new := by
    constructor
    · intro r hr; simp [AnalysisState.new] at hr
    · show (0 : ℚ) ≤ 4/5
      norm_num
  have h0 := hgen l AnalysisState.new hnew
  have he : runTokens args l =
      l.foldl (fun s p => s.update (analyze_token p.1 p.2) args p.2) AnalysisState.new := by
    rw [runTokens, runStats, List.foldl_map]
  rw [he]
  exact h0

/-! ## UTF-8 byte-slicing lemmas -/

theorem utf8Size_of_ascii (c : Char) (h : c.toNat < 128) : c.utf8Size = 1 := by
  have hle : c.val ≤ UInt32.ofNatCore 0x7F (by norm_num) := by
    rw [UInt32.le_def, BitVec.le_def]
    show c.toNat ≤ 127
    omega
  unfold Char.utf8Size
  rw [if_pos hle]

theorem utf8Len_ascii (l : List Char) (h : ∀ c ∈ l, c.utf8Size = 1) :
    String.utf8Len l = l.length := by
  induction l with
  | nil => rfl
  | cons c rest ih =>
    have hc : c.utf8Size = 1 := h c (by simp)
    have hr := ih (fun x hx => h x (by simp [hx]))
    simp [hc, hr]

theorem utf8ByteSize_ascii (s : String) (h : ∀ c ∈ s.data, c.utf8Size = 1) :
    s.utf8ByteSize = s.data.length := by
  obtain ⟨l⟩ := s
  simpa using utf8Len_ascii l (by simpa using h)

theorem takeBytes_ascii (l : List Char) (h : ∀ c ∈ l, c.utf8Size = 1) :
    ∀ k, k ≤ l.length → (takeBytes l k).isSome = true := by
  induction l with
  | nil =>
    intro k hk
    have hk0 : k = 0 := by simpa using hk
    simp [hk0, takeBytes]
  | cons c rest ih =>
    intro k hk
    cases k with
    | zero => simp [takeBytes]
    | succ k2 =>
      have hc : c.utf8Size = 1 := h c (by simp)
      have hk2 : k2 ≤ rest.length := by simpa using hk
      have hr := ih (fun x hx => h x (by simp [hx])) k2 hk2
      simp [takeBytes, hc, hr]

/-! ## Adjacent-duplicate characterisation -/

theorem hasAdjacentDup_iff (l : List Char) :
    hasAdjacentDup l = true ↔ ∃ l1 c l2, l = l1 ++ c :: c :: l2 := by
  induction l with
  | nil =>
    simp only [hasAdjacentDup]
    constructor
    · intro h; cases h
    · rintro ⟨l1, c, l2, he⟩
      cases l1 <;> simp at he
  | cons a rest ih =>
    cases rest with
    | nil =>
      simp only [hasAdjacentDup]
      constructor
      · intro h; cases h
      · rintro ⟨l1, c, l2, he⟩
        have hlen := congrArg List.length he
        simp at hlen
        omega
    | cons b rest2 =>
      simp only [hasAdjacentDup, Bool.or_eq_true, decide_eq_true_eq]
      constructor
      · intro h
        rcases h with h1 | h2
        · exact ⟨[], a, rest2, by rw [h1]; rfl⟩
        · rcases ih.mp h2 with ⟨l1, c, l2, he⟩
          exact ⟨a :: l1, c, l2, by rw [List.cons_append, ← he]⟩
      · rintro ⟨l1, c, l2, he⟩
        cases l1 with
        | nil =>
          simp only [List.nil_append] at he
          injection he with h1 h2
          injection h2 with h3 h4
          left
          rw [h1, h3]
        | cons x xs =>
          simp only [List.cons_append] at he
          injection he with h1 h2
          right
          exact ih.mpr ⟨xs, c, l2, h2⟩

/-! ## The analysis/render loop never exits -/

theorem consumerIter_ne_none (args : Args) :
    ∀ (n : Nat) (cfg : ConsumerConfig), consumerIter args n cfg ≠ none := by
  intro n
  induction n with
  | zero =>
    intro cfg h
    simp [consumerIter] at h
  | succ k ih =>
    intro cfg h
    simp only [consumerIter, consumerStep] at h
    exact ih _ h

/-! ## Update-level field equations and snoc -/

theorem update_warning_flags (s : AnalysisState) (ts : TokenStats) (args : Args) (now : Nat) :
    (s.update ts args now).warning_flags =
      thresholdWarnings args
        (if 0 < (s.push ts args.buffer_size).token_buffer.length then
          1 - (((s.push ts args.buffer_size).pattern_tracker.length : ℚ) /
            ((s.push ts args.buffer_size).token_buffer.length : ℚ))
         else 0)
        (((s.push ts args.buffer_size).token_buffer.map TokenStats.perplexity).sum /
          ((s.push ts args.buffer_size).token_buffer.length : ℚ))
        (((s.push ts args.buffer_size).token_buffer.map TokenStats.confidence).sum /
          ((s.push ts args.buffer_size).token_buffer.length : ℚ)) ++
      hallucinationWarnings
        (((s.push ts args.buffer_size).token_buffer.reverse.take 20).map TokenStats.token) :=
  calculate_metrics_warning_flags _ args now (push_token_buffer_ne s ts args.buffer_size)

theorem update_detected_patterns (s : AnalysisState) (ts : TokenStats) (args : Args)
    (now : Nat) :
    (s.update ts args now).detected_patterns =
      ngramReports ((s.push ts args.buffer_size).token_buffer.map TokenStats.token)
        (s.push ts args.buffer_size).pattern_tracker ++
      listingReport ((s.push ts args.buffer_size).token_buffer.map TokenStats.token) ++
      uncertaintyReport ((s.push ts args.buffer_size).token_buffer.map TokenStats.token) :=
  calculate_metrics_detected_patterns _ args now (push_token_buffer_ne s ts args.buffer_size)

theorem runTokens_snoc (args : Args) (l : List (String × Nat)) (p : String × Nat) :
    runTokens args (l ++ [p]) =
      (runTokens args l).update (analyze_token p.1 p.2) args p.2 := by
  simp [runTokens, runStats, List.map_append, List.foldl_append]

/-! ## Claim theorems -/

/-- Claim C3, counterexample: the claim quantifies over every capacity C,
but for a Window Store constructed with capacity 0 (`--buffer-size 0` is
accepted) a single push leaves one record in the window — `pop_front` on
the empty deque is a no-op and the new record is still appended — so the
length is 1, not min(1, 0) = 0. -/
theorem c3_zero_capacity_counterexample :
    (runStats (argsCap 0) [(plainTS "a", 0)]).token_buffer.length ≠ min 1 0 := by
  decide

/-- Claim C3 (amended): for every capacity C ≥ 1, after N pushes the
window length is exactly min(N, C), and a push performed when the length
equals C removes precisely the oldest (front) record before appending the
new one. -/
theorem c3_window_length_min (args : Args) (hC : 1 ≤ args.buffer_size) :
    (∀ l : List (TokenStats × Nat),
        (runStats args l).token_buffer.length = min l.length args.buffer_size) ∧
    (∀ (s : AnalysisState) (ts : TokenStats) (now : Nat),
        s.token_buffer.length = args.buffer_size →
        (s.update ts args now).token_buffer = s.token_buffer.tail ++ [ts]) := by
  constructor
  · exact runStats_token_buffer_length args hC
  · intro s ts now hlen
    rw [update_token_buffer, if_pos (le_of_eq hlen.symm)]

/-- Witness for C3 at capacity 2: three pushes leave min(3, 2) = 2
records, and a push into the full window drops exactly the front
record. -/
theorem c3_window_length_min_witness :
    (runStats (argsCap 2) [(plainTS "a", 0), (plainTS "b", 0), (plainTS "c", 0)]).token_buffer.length
        = min 3 2 ∧
    ((runStats (argsCap 2) [(plainTS "a", 0), (plainTS "b", 0)]).update (plainTS "c")
        (argsCap 2) 0).token_buffer =
      (runStats (argsCap 2) [(plainTS "a", 0), (plainTS "b", 0)]).token_buffer.tail ++
        [plainTS "c"] :=
  ⟨(c3_window_length_min (argsCap 2) (by decide)).1 _,
   (c3_window_length_min (argsCap 2) (by decide)).2 _ (plainTS "c") 0 (by decide)⟩

/-- Claim C4: after every sequence of pushes (so in particular after
every individual push), the frequency table maps each text to exactly the
number of records in the window with that text, stores no zero count, and
its values sum to the window length. -/
theorem c4_freq_table_invariant (args : Args) (l : List (TokenStats × Nat)) :
    (∀ t : String, trackerVal (runStats args l).pattern_tracker t =
        ((runStats args l).token_buffer.map TokenStats.token).count t) ∧
    (0 : Nat) ∉ (runStats args l).pattern_tracker.map Prod.snd ∧
    ((runStats args l).pattern_tracker.map Prod.snd).sum =
      (runStats args l).token_buffer.length := by
  have h : TrackerInvRaw (runStats args l).pattern_tracker (runStats args l).token_buffer :=
    trackerInv_runStats args l
  refine ⟨h.counts, ?_, h.sums⟩
  intro h0
  rcases List.mem_map.mp h0 with ⟨p, hp, hz⟩
  exact h.nozero p hp hz

/-- Claim C5, counterexample: the two-character token "aa" has two equal
adjacent characters, yet `is_repetitive_token` returns false because
every token shorter than 3 bytes is rejected up front. -/
theorem c5_two_char_counterexample :
    is_repetitive_token "aa" = false ∧ hasAdjacentDup ("aa").data = true := by
  decide

/-- Claim C5 (amended): the repetitive-shape flag is true iff the token
is at least 3 bytes long AND some two adjacent characters are equal. -/
theorem c5_repetitive_iff_amended (token : String) :
    is_repetitive_token token = true ↔
      (3 ≤ token.utf8ByteSize ∧ ∃ l1 c l2, token.data = l1 ++ c :: c :: l2) := by
  unfold is_repetitive_token
  by_cases h : token.utf8ByteSize < 3
  · rw [if_pos h]
    constructor
    · intro hf
      exact Bool.noConfusion hf
    · rintro ⟨h3, -⟩
      omega
  · rw [if_neg h]
    rw [hasAdjacentDup_iff]
    constructor
    · intro hd
      exact ⟨by omega, hd⟩
    · intro hc
      exact hc.2

/-- Claim C6, counterexample: "abcdefgh" (8 bytes) is shorter than
"abcdefghi" (9 bytes), yet its perplexity 10 + 8·1.5 = 22.0 exceeds the
longer token's 15 + 9·0.5 = 19.5 — the heuristic is not monotonic across
the 4–8 / 9+ band boundary. -/
theorem c6_cross_band_counterexample :
    ("abcdefgh").utf8ByteSize ≤ ("abcdefghi").utf8ByteSize ∧
      calculate_perplexity "abcdefghi" < calculate_perplexity "abcdefgh" := by
  have h8 : calculate_perplexity "abcdefgh" = 22 := by
    rw [calculate_perplexity, show ("abcdefgh").utf8ByteSize = 8 from rfl]
    norm_num
  have h9 : calculate_perplexity "abcdefghi" = 39/2 := by
    rw [calculate_perplexity, show ("abcdefghi").utf8ByteSize = 9 from rfl]
    norm_num
  refine ⟨by decide, ?_⟩
  rw [h8, h9]
  norm_num

/-- Claim C6 (amended): perplexity is computed from three byte-length
bands (1–3: 5+2L, 4–8: 10+1.5L, otherwise 15+0.5L) and is non-decreasing
in token length WITHIN each band; monotonicity fails across band
boundaries (and for the empty token, which falls into the catch-all
band). -/
theorem c6_perplexity_mono_in_band (s t : String)
    (hband : (1 ≤ s.utf8ByteSize ∧ t.utf8ByteSize ≤ 3) ∨
             (4 ≤ s.utf8ByteSize ∧ t.utf8ByteSize ≤ 8) ∨
             (9 ≤ s.utf8ByteSize))
    (hle : s.utf8ByteSize ≤ t.utf8ByteSize) :
    calculate_perplexity s ≤ calculate_perplexity t := by
  have hcast : (s.utf8ByteSize : ℚ) ≤ (t.utf8ByteSize : ℚ) := by exact_mod_cast hle
  unfold calculate_perplexity
  rcases hband with ⟨h1, h2⟩ | ⟨h1, h2⟩ | h1
  · rw [if_pos ⟨h1, le_trans hle h2⟩, if_pos ⟨le_trans h1 hle, h2⟩]
    linarith
  · have hs1 : ¬(1 ≤ s.utf8ByteSize ∧ s.utf8ByteSize ≤ 3) := by omega
    have ht1 : ¬(1 ≤ t.utf8ByteSize ∧ t.utf8ByteSize ≤ 3) := by
      have := le_trans h1 hle
      omega
    rw [if_neg hs1, if_neg ht1, if_pos ⟨h1, le_trans hle h2⟩, if_pos ⟨le_trans h1 hle, h2⟩]
    linarith
  · have ht9 : 9 ≤ t.utf8ByteSize := le_trans h1 hle
    have hs1 : ¬(1 ≤ s.utf8ByteSize ∧ s.utf8ByteSize ≤ 3) := by omega
    have hs2 : ¬(4 ≤ s.utf8ByteSize ∧ s.utf8ByteSize ≤ 8) := by omega
    have ht1 : ¬(1 ≤ t.utf8ByteSize ∧ t.utf8ByteSize ≤ 3) := by omega
    have ht2 : ¬(4 ≤ t.utf8ByteSize ∧ t.utf8ByteSize ≤ 8) := by omega
    rw [if_neg hs1, if_neg hs2, if_neg ht1, if_neg ht2]
    linarith

/-- Witness for C6 inside the first band: length 1 vs length 3. -/
theorem c6_perplexity_mono_in_band_witness :
    calculate_perplexity "a" ≤ calculate_perplexity "abc" :=
  c6_perplexity_mono_in_band "a" "abc" (Or.inl ⟨by decide, by decide⟩) (by decide)

/-- Claim C7, counterexample: with capacity C = 1, two tokens both
arriving within the trailing second leave `tokens_per_second = 1` — the
evicted record is not counted — while the spec's "count of ALL records
that arrived within the last second" is 2. -/
theorem c7_evicted_arrivals_counterexample :
    (runTokens (argsCap 1) [("a", 0), ("b", 0)]).tokens_per_second ≠
      ((specArrivalsInLastSecond [("a", 0), ("b", 0)] 0 : ℕ) : ℚ) := by
  decide

/-- Claim C7 (amended): on every update, `tokens_per_second` equals the
number of records CURRENTLY IN THE WINDOW whose arrival timestamp lies
within the trailing 1-second interval: records evicted by the capacity
bound are not counted even if they arrived within the last second, and
records older than one second are not counted while still in the
window. -/
theorem c7_tps_window_filter (s : AnalysisState) (ts : TokenStats) (args : Args) (now : Nat) :
    (s.update ts args now).tokens_per_second =
      (((s.update ts args now).token_buffer.filter
          (fun t : TokenStats => now - t.timestamp < 1000)).length : ℚ) := by
  have hne := push_token_buffer_ne s ts args.buffer_size
  have h1 := calculate_metrics_tokens_per_second (s.push ts args.buffer_size) args now hne
  have h2 : (s.update ts args now).token_buffer = (s.push ts args.buffer_size).token_buffer :=
    calculate_metrics_token_buffer _ _ _
  have h3 : (s.update ts args now).tokens_per_second =
      ((s.push ts args.buffer_size).calculate_metrics args now).tokens_per_second := rfl
  rw [h3, h1, h2]

/-- Claim C8, counterexample: starting from the exhausted configuration
(producer finished, queue drained), no number of loop iterations ever
reaches the loop-exit outcome — the `loop` body has no `break`, so the
program never terminates on end of input. -/
theorem c8_no_termination_counterexample :
    ¬ ∃ n, consumerIter defaultArgs n exhaustedConfig = none := by
  rintro ⟨n, hn⟩
  exact consumerIter_ne_none defaultArgs n exhaustedConfig hn

/-- Claim C8 (amended): once the input stream is exhausted and the queue
is drained, the analysis/render loop never exits: every number of
iterations leaves it running, with the analysis state unchanged and the
queue still empty (it keeps re-rendering until externally terminated). -/
theorem c8_loop_runs_forever (args : Args) :
    ∀ (n : Nat) (cfg : ConsumerConfig), cfg.pending = [] →
      ∃ cfg2, consumerIter args n cfg = some cfg2 ∧ cfg2.state = cfg.state ∧
        cfg2.pending = [] := by
  intro n
  induction n with
  | zero =>
    intro cfg hp
    exact ⟨cfg, rfl, rfl, hp⟩
  | succ k ih =>
    intro cfg hp
    have hstep : consumerStep args cfg = some
        { state := cfg.state, pending := [],
          since_render := (if args.interval ≤ cfg.since_render then 0 else cfg.since_render) + 10,
          renders := cfg.renders + (if args.interval ≤ cfg.since_render then 1 else 0) } := by
      simp [consumerStep, drainAll, hp]
    simp only [consumerIter, hstep]
    exact ih _ rfl

/-- Witness for C8: three iterations past exhaustion still leave the loop
running with the state untouched. -/
theorem c8_loop_runs_forever_witness :
    ∃ cfg2, consumerIter defaultArgs 3 exhaustedConfig = some cfg2 ∧
      cfg2.state = exhaustedConfig.state ∧ cfg2.pending = [] :=
  c8_loop_runs_forever defaultArgs 3 exhaustedConfig rfl

/-- Claim C9, counterexample: `truncate_string` byte-slices at
`max_len - 3`; on the 5-byte string "éaaa" with `max_len = 4` the cut
index 1 falls inside the two-byte character 'é', which in Rust panics
(modelled as `none`). -/
theorem c9_truncate_multibyte_counterexample :
    truncate_string "éaaa" 4 = none := by decide

/-- Claim C9 (amended): string truncation is fault-free whenever the
string is ASCII, or fits within `max_len` (and the strings the program
actually passes are ASCII constants); the empty-window guard holds:
`calculate_metrics` on an empty buffer returns the state unchanged and
the initial state defines every rate/ratio as 0, so no division by zero
is ever performed. -/
theorem c9_amended_safety :
    (∀ (s : String) (max_len : Nat), (∀ c ∈ s.data, c.toNat < 128) →
        (truncate_string s max_len).isSome = true) ∧
    (∀ (s : String) (max_len : Nat), s.utf8ByteSize ≤ max_len →
        truncate_string s max_len = some s) ∧
    (∀ (s : AnalysisState) (args : Args) (now : Nat), s.token_buffer.isEmpty = true →
        s.calculate_metrics args now = s) ∧
    AnalysisState.new.tokens_per_second = 0 ∧ AnalysisState.new.avg_perplexity = 0 ∧
    AnalysisState.new.repetition_score = 0 ∧ AnalysisState.new.confidence_score = 0 := by
  refine ⟨?_, ?_, ?_, rfl, rfl, rfl, rfl⟩
  · intro s max_len hascii
    unfold truncate_string
    by_cases hle : s.utf8ByteSize ≤ max_len
    · rw [if_pos hle]
      rfl
    · rw [if_neg hle]
      have hsz : ∀ c ∈ s.data, c.utf8Size = 1 := fun c hc => utf8Size_of_ascii c (hascii c hc)
      have hlen : s.utf8ByteSize = s.data.length := utf8ByteSize_ascii s hsz
      have hk : max_len - 3 ≤ s.data.length := by omega
      have hsome := takeBytes_ascii s.data hsz (max_len - 3) hk
      rw [Option.isSome_map']
      exact hsome
  · intro s max_len h
    unfold truncate_string
    rw [if_pos h]
  · intro s args now h
    unfold AnalysisState.calculate_metrics
    rw [if_pos h]

/-- Witness for C9: truncating an 8-byte ASCII string to 4 succeeds, a
fitting string is returned unchanged, and metrics on the fresh empty
state are a no-op. -/
theorem c9_amended_safety_witness :
    (truncate_string "abcdefgh" 4).isSome = true ∧
      truncate_string "ab" 5 = some "ab" ∧
      AnalysisState.new.calculate_metrics defaultArgs 0 = AnalysisState.new :=
  ⟨c9_amended_safety.1 "abcdefgh" 4 (by decide),
   c9_amended_safety.2.1 "ab" 5 (by decide),
   c9_amended_safety.2.2.1 AnalysisState.new defaultArgs 0 (by decide)⟩

/-- Claim C10: the confidence heuristic takes exactly one of the three
values 0.4, 0.6, 0.8, and consequently the window's average confidence
after any run of the pipeline never exceeds 0.8. -/
theorem c10_confidence_values_bound :
    (∀ token : String, calculate_confidence token = 2/5 ∨
        calculate_confidence token = 3/5 ∨ calculate_confidence token = 4/5) ∧
    (∀ (args : Args) (l : List (String × Nat)), (runTokens args l).confidence_score ≤ 4/5) := by
  refine ⟨calculate_confidence_cases, ?_⟩
  intro args l
  exact (confInv_runTokens args l).2

theorem runTokens_snoc2 (args : Args) (l : List (String × Nat)) (tok : String) (now : Nat) :
    runTokens args (l ++ [(tok, now)]) =
      (runTokens args l).update (analyze_token tok now) args now :=
  runTokens_snoc args l (tok, now)

/-- Claim C1, evaluation at the failing input: running the pipeline on
the nine tokens the, cat, sat, the, cat, sat, the, cat, sat (defaults:
capacity 1000, n = 3, repeat threshold 3) produces an EMPTY
detected-pattern list — in particular no report of the 3-gram
"the cat sat".  The 3-gram branch looks the joined phrase up in
`pattern_tracker`, which only ever holds single whitespace-free tokens,
so a space-joined phrase is never found and the branch is dead code. -/
theorem c1_ngram_report_missing :
    (runTokens defaultArgs nineTokens).detected_patterns = [] := by
  have hsplit : nineTokens = ninePrefix ++ [("sat", 0)] := by decide
  rw [hsplit, runTokens_snoc2, update_detected_patterns]
  have htok : ((runTokens defaultArgs ninePrefix).push (analyze_token "sat" 0)
      defaultArgs.buffer_size).token_buffer.map TokenStats.token =
      ["the", "cat", "sat", "the", "cat", "sat", "the", "cat", "sat"] := by decide
  have htrk : ((runTokens defaultArgs ninePrefix).push (analyze_token "sat" 0)
      defaultArgs.buffer_size).pattern_tracker = [("the", 3), ("cat", 3), ("sat", 3)] := by
    decide
  rw [htok, htrk]
  have h1 : ngramReports ["the", "cat", "sat", "the", "cat", "sat", "the", "cat", "sat"]
      [("the", 3), ("cat", 3), ("sat", 3)] = [] := by decide
  have h2 : listingReport ["the", "cat", "sat", "the", "cat", "sat", "the", "cat", "sat"]
      = [] := by decide
  rw [h1, h2]
  have hcnt : ((["the", "cat", "sat", "the", "cat", "sat", "the", "cat", "sat"] :
      List String).filter
      (fun t => uncertainty_words.any (fun w => contains_str (lowerStr t) w))).length = 0 := by
    decide
  simp only [uncertaintyReport]
  rw [hcnt]
  rw [if_neg (by norm_num [List.length_cons, List.length_nil])]
  rfl

/-- Claim C2, evaluation at the failing input: after ingesting the line
"I cannot browse real-time data" (whitespace-tokenized, all five tokens
inside the trailing 20-token slice), the warning set is EMPTY — in
particular no warning naming the "I cannot" marker.  Every marker in the
set contains a space, while `check_warnings` tests `contains` on each
whitespace-free token individually, so no marker can ever match. -/
theorem c2_marker_warning_missing :
    (runTokens defaultArgs
        ((tokenize_line "I cannot browse real-time data").map (fun t => (t, 0)))).warning_flags
      = [] := by
  have hsplit : (tokenize_line "I cannot browse real-time data").map
      (fun t : String => (t, (0 : Nat))) = disclaimPrefix ++ [("data", 0)] := by decide
  rw [hsplit, runTokens_snoc2, update_warning_flags]
  have hlen : ((runTokens defaultArgs disclaimPrefix).push (analyze_token "data" 0)
      defaultArgs.buffer_size).token_buffer.length = 5 := by decide
  have htrk : ((runTokens defaultArgs disclaimPrefix).push (analyze_token "data" 0)
      defaultArgs.buffer_size).pattern_tracker.length = 5 := by decide
  have hrec : (((runTokens defaultArgs disclaimPrefix).push (analyze_token "data" 0)
      defaultArgs.buffer_size).token_buffer.reverse.take 20).map TokenStats.token =
      ["data", "real-time", "browse", "cannot", "I"] := by decide
  have hmapP : ((runTokens defaultArgs disclaimPrefix).push (analyze_token "data" 0)
      defaultArgs.buffer_size).token_buffer.map TokenStats.perplexity =
      [calculate_perplexity "I", calculate_perplexity "cannot", calculate_perplexity "browse",
       calculate_perplexity "real-time", calculate_perplexity "data"] := rfl
  have hmapC : ((runTokens defaultArgs disclaimPrefix).push (analyze_token "data" 0)
      defaultArgs.buffer_size).token_buffer.map TokenStats.confidence =
      [calculate_confidence "I", calculate_confidence "cannot", calculate_confidence "browse",
       calculate_confidence "real-time", calculate_confidence "data"] := rfl
  rw [hmapP, hmapC, hrec, hlen, htrk]
  have pI : calculate_perplexity "I" = 7 := by
    rw [calculate_perplexity, show ("I").utf8ByteSize = 1 from rfl]
    norm_num
  have pc : calculate_perplexity "cannot" = 19 := by
    rw [calculate_perplexity, show ("cannot").utf8ByteSize = 6 from rfl]
    norm_num
  have pb : calculate_perplexity "browse" = 19 := by
    rw [calculate_perplexity, show ("browse").utf8ByteSize = 6 from rfl]
    norm_num
  have pr : calculate_perplexity "real-time" = 39/2 := by
    rw [calculate_perplexity, show ("real-time").utf8ByteSize = 9 from rfl]
    norm_num
  have pd : calculate_perplexity "data" = 16 := by
    rw [calculate_perplexity, show ("data").utf8ByteSize = 4 from rfl]
    norm_num
  have cI : calculate_confidence "I" = 4/5 := by
    rw [calculate_confidence, if_pos (by decide : (("I").data.all Char.isAlpha) = true)]
  have cc : calculate_confidence "cannot" = 4/5 := by
    rw [calculate_confidence, if_pos (by decide : (("cannot").data.all Char.isAlpha) = true)]
  have cb : calculate_confidence "browse" = 4/5 := by
    rw [calculate_confidence, if_pos (by decide : (("browse").data.all Char.isAlpha) = true)]
  have cr : calculate_confidence "real-time" = 2/5 := by
    rw [calculate_confidence, if_neg (by decide), if_neg (by decide)]
  have cd : calculate_confidence "data" = 4/5 := by
    rw [calculate_confidence, if_pos (by decide : (("data").data.all Char.isAlpha) = true)]
  rw [pI, pc, pb, pr, pd, cI, cc, cb, cr, cd]
  have hh : hallucinationWarnings ["data", "real-time", "browse", "cannot", "I"] = [] := by
    decide
  rw [hh, thresholdWarnings]
  rw [if_neg (by norm_num [defaultArgs]),
      if_neg (by norm_num [defaultArgs, List.sum_cons, List.sum_nil]),
      if_neg (by norm_num [defaultArgs, List.sum_cons, List.sum_nil])]
  rfl
